import Mathlib

/-!
Verification of the execution and compliance layer of the Forward_Profit
options-trading bot: the option-symbol codec (strategy.py / market_data.py),
the day-trade ledger (trade_tracker.py), the resilient order client
(execution.py) and the trade coordinator (opportunity_finder.py).

Modelling conventions:
* Python arbitrary-precision integers are Nat / Int.
* Python datetime values are Int seconds; the calendar-date projection
  datetime.date() is floor division by 86400 seconds.
* Python numeric strike arithmetic (floats with three implied decimal
  digits) is modelled exactly in milli-dollar units (strike * 1000 as an
  integer); the float rounding of the source is not modelled.
* Network responses, random values and the wall clock are explicit
  parameters, so every function is pure and executable.
-/

namespace ForwardProfit

/-- Decimal digit character for a value below ten, as produced by Python
string formatting. -/
def digitChar (d : Nat) : Char := Char.ofNat (48 + d)

/-- Fuel-bounded worker for the decimal rendering; the fuel strictly
dominates the value at every call, so it never runs out. -/
def natDigitsGo : Nat → Nat → List Char
  | 0, _ => []
  | fuel + 1, n =>
    if n < 10 then [digitChar n]
    else natDigitsGo fuel (n / 10) ++ [digitChar (n % 10)]

/-- Decimal representation of a natural number as a list of characters,
most significant digit first; mirrors the decimal rendering used by
Python f-strings such as f"{n:05d}". -/
def natDigits (n : Nat) : List Char :=
  natDigitsGo (n + 1) n

/-- ASCII alphanumeric test, the model of Python str.isalnum for the
ASCII symbol strings this system manipulates. -/
def isAlnumChar (c : Char) : Bool :=
  c.isAlpha || c.isDigit

/-- Zero-padded decimal rendering of width w, the model of Python
f"{n:0wd}": pad with zeros on the left up to width w. -/
def padNat (w n : Nat) : List Char :=
  List.replicate (w - (natDigits n).length) '0' ++ natDigits n

/-- Worker for decimal-string parsing: consume characters, accumulating
the value; any non-digit character aborts the parse. -/
def parseDigitsGo : List Char → Nat → Option Nat
  | [], acc => some acc
  | c :: cs, acc =>
    if c.isDigit then parseDigitsGo cs (acc * 10 + (c.toNat - 48)) else none

/-- Model of Python int(s) restricted to plain decimal-digit strings:
the empty string and any string with a non-digit character fail.  Python
int() additionally accepts a sign, surrounding whitespace and PEP 515
underscores between digits, so this model is stricter on such strings.
Every theorem below is insensitive to the gap: it either evaluates
digit-only fields, on which the two grammars agree exactly, or concludes
a failure forced by an empty field, which both grammars reject. -/
def parseNatDigits (l : List Char) : Option Nat :=
  if l.isEmpty then none else parseDigitsGo l 0

/-- Model of Python float(s) for the strike field, kept in exact
milli-dollar units: the source computes float(strike_portion) / 1000; we
parse the digit string and keep the integer value, which carries the same
information for every digit-only strike field.  Python float() accepts a
wider grammar (decimal points, exponents, signs, whitespace, inf/nan)
that the canonical symbol format never produces; the theorems below rely
on it only where the grammars agree: on digit-only fields and on the
empty string, which float() always rejects. -/
def parseStrikeMilli (l : List Char) : Option Nat :=
  parseNatDigits l

/-- Option type of a contract, the {C|P} field of the canonical symbol. -/
inductive OptType where
  | call
  | put
  deriving DecidableEq, Repr

/-- Character written into the canonical symbol for each option type,
from strategy.select_option_contract: option_code = "C" if call else "P". -/
def OptType.char : OptType → Char
  | .call => 'C'
  | .put => 'P'

/-- Calendar date (year, month, day), the expiration component of an
instrument identifier. -/
structure Date where
  year : Nat
  month : Nat
  day : Nat
  deriving DecidableEq, Repr

/-- Lexicographic strict order on calendar dates, used to state the
"future expiration" validity condition. -/
def Date.before (a b : Date) : Bool :=
  a.year < b.year ∨
    (a.year = b.year ∧ (a.month < b.month ∨ (a.month = b.month ∧ a.day < b.day)))

/-- Encoder from strategy.select_option_contract lines 222-234: the
canonical option symbol is underlying ++ YYMMDD (strftime %y%m%d) ++ C/P
++ five-digit dollars ++ three-digit milli fraction.  strike_dollars =
int(strike) and strike_cents = int((strike - dollars) * 1000) are modelled
exactly as strikeMilli / 1000 and strikeMilli % 1000. -/
def encodeOptionSymbol (symbol : String) (expiry : Date) (t : OptType)
    (strikeMilli : Nat) : String :=
  String.mk (symbol.toList
    ++ padNat 2 (expiry.year % 100) ++ padNat 2 expiry.month ++ padNat 2 expiry.day
    ++ [t.char]
    ++ padNat 5 (strikeMilli / 1000) ++ padNat 3 (strikeMilli % 1000))

/-- Underlying-symbol extraction shared by market_data.validate_option_symbol
lines 346-355 and execution.place_option_order lines 244-256: take
characters until the first digit, then keep only alphanumeric characters. -/
def extractUnderlying (optionSymbol : String) : String :=
  String.mk ((optionSymbol.toList.takeWhile (fun c => !c.isDigit)).filter isAlnumChar)

/-- Result of successfully parsing an option symbol: the tuple recovered
by market_data.validate_option_symbol lines 357-374. -/
structure DecodedOption where
  underlying : String
  expiration : Date
  typeStr : String
  strikeMilli : Nat
  deriving DecidableEq, Repr

/-- Python slice s[a:b] on a character list. -/
def sliceList (l : List Char) (a b : Nat) : List Char :=
  (l.drop a).take (b - a)

/-- Decoder from market_data.validate_option_symbol lines 346-377: split
at the first digit (or trust a caller-supplied underlying), read a
six-character YYMMDD date with year offset 2000, one type character, and
the remaining strike digits divided by 1000 (kept here in milli units).
Any parse failure (Python exception) yields none, which the source turns
into the (False, None, None) rejection. -/
def parseOptionSymbol (optionSymbol : String) (underlyingGiven : Option String) :
    Option DecodedOption :=
  let u := match underlyingGiven with
    | some s => s
    | none => extractUnderlying optionSymbol
  let l := optionSymbol.toList
  let dateStart := u.toList.length
  let datePortion := sliceList l dateStart (dateStart + 6)
  let typePortion := sliceList l (dateStart + 6) (dateStart + 7)
  let strikePortion := l.drop (dateStart + 7)
  match parseNatDigits ('2' :: '0' :: sliceList datePortion 0 2),
      parseNatDigits (sliceList datePortion 2 4),
      parseNatDigits (sliceList datePortion 4 6),
      parseStrikeMilli strikePortion with
  | some year, some month, some day, some strike =>
    some ⟨u, ⟨year, month, day⟩, String.mk typePortion, strike⟩
  | _, _, _, _ => none

/-- Canonical one-character string for an option type, the typeStr a
successful decode of an encoded symbol recovers. -/
def OptType.str (t : OptType) : String := String.mk [t.char]

/-- Portion of an option symbol from the first digit onward, the suffix
the spec measures when it states decode length bounds. -/
def suffixFromFirstDigit (s : String) : List Char :=
  s.toList.dropWhile (fun c => !c.isDigit)

/-- Validity of an instrument tuple exactly as the round-trip claim words
it: non-empty digit-free underlying, future expiration, strike positive
with three decimal digits and at most five integer digits. -/
def ClaimedValidInstrument (today : Date) (u : String) (d : Date) (m : Nat) : Prop :=
  u ≠ "" ∧ (∀ c ∈ u.toList, ¬ c.isDigit) ∧ today.before d = true ∧
    0 < m ∧ m < 100000000

instance (today : Date) (u : String) (d : Date) (m : Nat) :
    Decidable (ClaimedValidInstrument today u d m) := by
  unfold ClaimedValidInstrument
  infer_instance

/-- Validity of an instrument tuple as claimed for the round-trip law:
digit-free non-empty ASCII-alphanumeric underlying, expiration after the
given day and within the two-digit-year era, a calendar-plausible month
and day, and a positive strike below 10^8 milli-dollars (at most five
integer digits with three decimals). -/
def ValidInstrument (today : Date) (u : String) (d : Date) (m : Nat) : Prop :=
  u ≠ "" ∧ (∀ c ∈ u.toList, ¬ c.isDigit) ∧ (∀ c ∈ u.toList, isAlnumChar c) ∧
    today.before d = true ∧
    2000 ≤ d.year ∧ d.year < 2100 ∧
    1 ≤ d.month ∧ d.month ≤ 12 ∧ 1 ≤ d.day ∧ d.day ≤ 31 ∧
    0 < m ∧ m < 100000000

instance (today : Date) (u : String) (d : Date) (m : Nat) :
    Decidable (ValidInstrument today u d m) := by
  unfold ValidInstrument
  infer_instance

/-! Ledger embedding, from trade_tracker.py.  Python datetimes are Int
seconds; datetime.date() becomes flooring division by 86400, so two times
fall on the same calendar date exactly when those quotients agree. -/

/-- Calendar-date projection of a timestamp, the model of datetime.date(). -/
def dateOfTime (t : Int) : Int := Int.fdiv t 86400

/-- Seven calendar days in seconds, the rolling-window approximation of
five business days used by cleanup_expired_day_trades (line 111). -/
def windowSeconds : Int := 604800

/-- Open position entry of the trades dict: entry time and contracts held.
The option_data payload is carried unchanged by every operation and is
omitted. -/
structure PositionV where
  entryTime : Int
  contracts : Int
  deriving DecidableEq, Repr

/-- One recorded day trade, an element of the day_trades list. -/
structure DayTradeRec where
  symbol : String
  entryTime : Int
  exitTime : Int
  contracts : Int
  deriving DecidableEq, Repr

/-- State of a TradeTracker: the open-position dict (modelled as a
key-unique association list), the day-trade list and the configured
maximum.  File persistence (save_data) rewrites the same state and is
omitted. -/
structure TrackerState where
  trades : List (String × PositionV)
  dayTrades : List DayTradeRec
  maxTrades : Nat
  deriving DecidableEq, Repr

/-- Dict lookup self.trades.get(symbol) on the association list. -/
def lookupPos : List (String × PositionV) → String → Option PositionV
  | [], _ => none
  | (k, v) :: rest, s => if k = s then some v else lookupPos rest s

/-- Dict deletion del self.trades[symbol]. -/
def removePos : List (String × PositionV) → String → List (String × PositionV)
  | [], _ => []
  | (k, v) :: rest, s => if k = s then rest else (k, v) :: removePos rest s

/-- Dict assignment self.trades[symbol] = value. -/
def setPos : List (String × PositionV) → String → PositionV → List (String × PositionV)
  | [], s, v => [(s, v)]
  | (k, w) :: rest, s, v => if k = s then (s, v) :: rest else (k, w) :: setPos rest s v

/-- TradeTracker.add_position lines 121-146: accumulate into an existing
position or open a new one. -/
def addPosition (s : TrackerState) (symbol : String) (contracts : Int)
    (entryTime : Int) : TrackerState :=
  match lookupPos s.trades symbol with
  | some pos =>
    { s with trades := setPos s.trades symbol { pos with contracts := pos.contracts + contracts } }
  | none =>
    { s with trades := setPos s.trades symbol ⟨entryTime, contracts⟩ }

/-- TradeTracker.close_position lines 148-194: when the symbol is held,
append a DayTradeRecord exactly when entry and exit fall on the same
calendar date, then decrement the position, deleting it at or below zero;
an unknown symbol leaves the state unchanged and reports no day trade. -/
def closePosition (s : TrackerState) (symbol : String) (contracts : Int)
    (exitTime : Int) : Bool × TrackerState :=
  match lookupPos s.trades symbol with
  | none => (false, s)
  | some pos =>
    let sameDay : Bool := dateOfTime pos.entryTime == dateOfTime exitTime
    let dayTrades2 :=
      if sameDay then
        s.dayTrades ++ [⟨symbol, pos.entryTime, exitTime, min contracts pos.contracts⟩]
      else s.dayTrades
    let remaining := pos.contracts - contracts
    let trades2 :=
      if remaining ≤ 0 then removePos s.trades symbol
      else setPos s.trades symbol { pos with contracts := remaining }
    (sameDay, { s with trades := trades2, dayTrades := dayTrades2 })

/-- TradeTracker.add_day_trade lines 196-220: unconditionally append a
record with the supplied entry and exit times. -/
def addDayTrade (s : TrackerState) (symbol : String) (contracts : Int)
    (entryTime exitTime : Int) : TrackerState :=
  { s with dayTrades := s.dayTrades ++ [⟨symbol, entryTime, exitTime, contracts⟩] }

/-- TradeTracker.cleanup_expired_day_trades lines 104-119: keep the
records whose exit time is strictly later than now minus seven days. -/
def cleanupExpiredDayTrades (now : Int) (s : TrackerState) : TrackerState :=
  { s with dayTrades := s.dayTrades.filter (fun dt => now - windowSeconds < dt.exitTime) }

/-- TradeTracker.get_day_trade_count lines 222-230: evict expired records,
then count what remains. -/
def dayTradeCount (now : Int) (s : TrackerState) : Nat :=
  ((cleanupExpiredDayTrades now s).dayTrades).length

/-- TradeTracker.can_day_trade lines 232-240: more day trades are allowed
while the windowed count stays below max_trades. -/
def canDayTrade (now : Int) (s : TrackerState) : Bool :=
  dayTradeCount now s < s.maxTrades

/-! Gateway embedding, from execution.py and the chain side of
market_data.py.  Network and random effects are explicit parameters. -/

/-- Sandbox configuration flags from config.py: USE_SANDBOX and
ENABLE_SANDBOX_FALLBACK. -/
structure Flags where
  useSandbox : Bool
  enableSandboxFallback : Bool
  deriving DecidableEq, Repr

/-- One contract row of an option chain or lookup response; strikes are
kept in exact milli-dollars. -/
structure OptionQuote where
  symbol : String
  optionType : String
  strikeMilli : Int
  deriving DecidableEq, Repr

/-- Option-chain response as validate_option_symbol sees it: the calls
and puts keys may each be missing (dict key absent) or empty. -/
structure OptionChain where
  calls : Option (List OptionQuote)
  puts : Option (List OptionQuote)
  deriving DecidableEq, Repr

/-- Expiration string f"{year}-{month:02d}-{day:02d}" built by
validate_option_symbol line 369. -/
def formatExpiration (d : Date) : String :=
  String.mk (natDigits d.year ++ ('-' :: (padNat 2 d.month ++ ('-' :: padNat 2 d.day))))

/-- Closest-strike scan of validate_option_symbol lines 420-427: keep the
entry with the smallest absolute strike difference, the first one winning
ties because the update is strict. -/
def closestGo (target : Int) : List OptionQuote → Option (OptionQuote × Int) →
    Option (OptionQuote × Int)
  | [], best => best
  | o :: rest, best =>
    let dist := |o.strikeMilli - target|
    match best with
    | none => closestGo target rest (some (o, dist))
    | some (b, bd) =>
      if dist < bd then closestGo target rest (some (o, dist))
      else closestGo target rest (some (b, bd))

/-- Closest chain entry to a target strike, none only on an empty chain
side (the float("inf") start means the first entry always wins). -/
def closestOption (opts : List OptionQuote) (target : Int) : Option OptionQuote :=
  (closestGo target opts none).map (fun p => p.1)

/-- market_data.validate_option_symbol lines 332-439 after the parse step:
returns (is_valid, valid_alternative, expiration_date).  The chain
argument stands for the get_option_chain network result. -/
def validateOptionSymbol (flags : Flags) (chain : Option OptionChain)
    (optionSymbol : String) (underlyingGiven : Option String) :
    Bool × Option String × Option String :=
  match parseOptionSymbol optionSymbol underlyingGiven with
  | none => (false, none, none)
  | some parsed =>
    let expStr := formatExpiration parsed.expiration
    if flags.useSandbox && flags.enableSandboxFallback then
      (true, some optionSymbol, some expStr)
    else
      match chain with
      | none =>
        if flags.useSandbox then (true, some optionSymbol, some expStr)
        else (false, none, some expStr)
      | some ch =>
        match ch.calls, ch.puts with
        | some callList, some putList =>
          let side := if parsed.typeStr.toUpper = "C" then callList else putList
          match side with
          | [] =>
            if flags.useSandbox then (true, some optionSymbol, some expStr)
            else (false, none, some expStr)
          | o :: rest =>
            if (o :: rest).any (fun q => q.symbol == optionSymbol) then
              (true, some optionSymbol, some expStr)
            else
              match closestOption (o :: rest) (Int.ofNat parsed.strikeMilli) with
              | some alt => (false, some alt.symbol, some expStr)
              | none =>
                if flags.useSandbox then (true, some optionSymbol, some expStr)
                else (false, none, some expStr)
        | _, _ =>
          if flags.useSandbox then (true, some optionSymbol, some expStr)
          else (false, none, some expStr)

/-- Order dict returned by the gateway, with the keys the claims consult;
absent dict keys are none, and the simulated flag marks synthesized
fills. -/
structure OrderResponse where
  error : Option String := none
  status : Option String := none
  orderId : Option Nat := none
  simulated : Bool := false
  avgFillMilli : Option Int := none
  deriving DecidableEq, Repr

/-- Outcome of one HTTP attempt against the order endpoint: a JSON body
with or without an order key, an HTTP status error, or a transport
failure. -/
inductive HttpResponse where
  | ok (hasOrder : Bool) (orderId : Option Nat) (orderStatus : Option String)
  | httpError (code : Nat) (reason : String)
  | netError (reason : String)
  deriving DecidableEq, Repr

/-- Status codes place_order retries on (execution.py line 204). -/
def retryableStatuses : List Nat := [429, 500, 502, 503, 504]

/-- Observable trace of one place_order call: the returned dict, how many
attempts were made, and the backoff waits slept between attempts. -/
structure PlaceAttemptTrace where
  response : OrderResponse
  attempts : Nat
  waits : List Nat
  deriving DecidableEq, Repr

/-- Retry loop of TradierClient.place_order lines 160-221.  The fuel is
the number of attempts still available, so the source guard
attempt < MAX_RETRIES - 1 is fuel at least one after the current attempt;
a 400 returns the server reason at once, retryable statuses and transport
errors back off base * 2 ^ attempt, and anything else is terminal. -/
def placeOrderGo (resp : Nat → HttpResponse) (base : Nat) :
    Nat → Nat → PlaceAttemptTrace
  | _, 0 =>
    ⟨{ error := some "Maximum retry attempts exceeded", status := some "rejected" }, 0, []⟩
  | attempt, fuel + 1 =>
    match resp attempt with
    | .ok true oid ostat => ⟨{ orderId := oid, status := ostat }, 1, []⟩
    | .ok false _ _ =>
      ⟨{ error := some "Unexpected response format", status := some "rejected" }, 1, []⟩
    | .httpError code reason =>
      if code = 400 then
        ⟨{ error := some ("Order validation error: " ++ reason),
           status := some "rejected" }, 1, []⟩
      else if 1 ≤ fuel ∧ code ∈ retryableStatuses then
        let t := placeOrderGo resp base (attempt + 1) fuel
        ⟨t.response, t.attempts + 1, base * 2 ^ attempt :: t.waits⟩
      else
        ⟨{ error := some ("Failed to place order: " ++ reason),
           status := some "rejected" }, 1, []⟩
    | .netError reason =>
      if 1 ≤ fuel then
        let t := placeOrderGo resp base (attempt + 1) fuel
        ⟨t.response, t.attempts + 1, base * 2 ^ attempt :: t.waits⟩
      else
        ⟨{ error := some ("Failed to place order: " ++ reason),
           status := some "rejected" }, 1, []⟩

/-- TradierClient.place_order on a fresh call: attempts start at zero with
MAX_RETRIES of fuel.  The typed OrderData record always carries the
required fields, so the missing-field preamble of lines 146-154 cannot
fire. -/
def placeOrderRun (resp : Nat → HttpResponse) (maxRetries base : Nat) :
    PlaceAttemptTrace :=
  placeOrderGo resp base 0 maxRetries

/-- Form payload built by place_option_order lines 365-376. -/
structure OrderData where
  orderClass : String
  symbol : String
  optionSymbol : String
  side : String
  quantity : Int
  orderType : String
  duration : String
  priceMilli : Option Int
  deriving DecidableEq, Repr

/-- Environment of one place_option_order call: every network response
and random draw the source consumes, made explicit.  chainOptions is the
combined call+put list get_option_chains returns for the first sandbox
expiration; prodChain feeds validate_option_symbol in production. -/
structure GatewayEnv where
  lookupResults : List OptionQuote
  expirations : List String
  chainOptions : List OptionQuote
  prodChain : Option OptionChain
  httpResponses : Nat → HttpResponse
  maxRetries : Nat
  retryBase : Nat
  randOrderId : Nat
  randFillMilli : Int

/-- TradierClient._simulate_option_order_success lines 391-431: a
synthesized filled order; a falsy (absent or zero) limit price draws the
random fill. -/
def simulateOptionOrderSuccess (env : GatewayEnv) (priceMilli : Option Int) :
    OrderResponse :=
  { orderId := some env.randOrderId, status := some "filled", simulated := true,
    avgFillMilli := some (match priceMilli with
      | some p => if p = 0 then env.randFillMilli else p
      | none => env.randFillMilli) }

/-- Outcome of the sandbox symbol-resolution block of place_option_order
lines 263-344: either a symbol to submit or the decision to synthesize. -/
inductive ResolveOutcome where
  | resolved (symbol : String)
  | simulate
  deriving DecidableEq, Repr

/-- Sandbox resolution of place_option_order lines 296-344: take the first
lookup hit; otherwise walk expirations and the chain, simulating whenever
no real data is available.  The parsed option details of lines 267-294
only feed the abstracted lookup request and are not modelled. -/
def sandboxResolve (env : GatewayEnv) (optionSymbol : String) : ResolveOutcome :=
  match env.lookupResults with
  | v :: _ => .resolved v.symbol
  | [] =>
    match env.expirations with
    | [] => .simulate
    | _ :: _ =>
      match env.chainOptions with
      | [] => .simulate
      | opts =>
        let typeStr := if optionSymbol.toList.contains 'C' then "call" else "put"
        match opts.find? (fun o => o.optionType == typeStr) with
        | some o => .resolved o.symbol
        | none => .simulate

/-- TradierClient.place_option_order lines 223-389: resolve the symbol
(sandbox lookup walk, or production validation), then submit through
place_order; in sandbox mode any error result is replaced by a simulated
fill.  Besides the returned dict we expose the form payload actually
submitted, none when no real submission happened. -/
def placeOptionOrder (flags : Flags) (env : GatewayEnv)
    (optionSymbol? : Option String) (symbol? : Option String) (side : String)
    (quantity : Int) (priceMilli : Option Int) (duration : String) :
    OrderResponse × Option OrderData :=
  match optionSymbol? with
  | none => ({ error := some "Option symbol is required" }, none)
  | some os0 =>
    let sym := match symbol? with
      | some s => s
      | none => extractUnderlying os0
    let resolved : String ⊕ OrderResponse :=
      if flags.useSandbox then
        match sandboxResolve env os0 with
        | .resolved os1 => .inl os1
        | .simulate => .inr (simulateOptionOrderSuccess env priceMilli)
      else
        match validateOptionSymbol flags env.prodChain os0 (some sym) with
        | (true, _, _) => .inl os0
        | (false, some alt, _) => .inl alt
        | (false, none, _) =>
          .inr { error := some "Option symbol not available for trading",
                 status := some "rejected" }
    match resolved with
    | .inr r => (r, none)
    | .inl osFinal =>
      let orderData : OrderData :=
        { orderClass := "option", symbol := sym, optionSymbol := osFinal,
          side := side, quantity := quantity,
          orderType := match priceMilli with | none => "market" | some _ => "limit",
          duration := duration, priceMilli := priceMilli }
      let result := (placeOrderRun env.httpResponses env.maxRetries env.retryBase).response
      if flags.useSandbox && result.error.isSome then
        (simulateOptionOrderSuccess env priceMilli, some orderData)
      else (result, some orderData)

/-! Coordinator embedding, from opportunity_finder.py. -/

/-- Arguments the coordinator passes to place_option_order, recorded so
theorems can speak about the submitted time-in-force. -/
structure GatewayCall where
  optionSymbol : String
  symbol : String
  side : String
  quantity : Int
  duration : String
  deriving DecidableEq, Repr

/-- Result of one execute_opportunity_trade run: the gateway call made (if
any), the submitted form payload, the returned dict and the ledger state
afterwards. -/
structure ExecResult where
  gatewayCall : Option GatewayCall
  submitted : Option OrderData
  response : OrderResponse
  tracker : TrackerState
  deriving Repr

/-- opportunity_finder.execute_opportunity_trade lines 654-738: gate on
market hours and contract shape, force duration to gtc when day trades
are not allowed, submit, and on a non-error result record a day trade at
open time whenever day trades were allowed. -/
def executeOpportunityTrade (flags : Flags) (env : GatewayEnv) (marketOpen : Bool)
    (ticker contract signal : String) (numContracts : Int) (dayTradeAllowed : Bool)
    (tracker : TrackerState) (now : Int) : ExecResult :=
  if !marketOpen then
    ⟨none, none, { error := some "Market is closed", status := some "rejected" }, tracker⟩
  else if contract.length < 15 then
    ⟨none, none, { error := some ("Invalid option contract format: " ++ contract),
                   status := some "rejected" }, tracker⟩
  else
    let quantity : Int := max 1 numContracts
    let duration := if dayTradeAllowed then "day" else "gtc"
    let side :=
      if signal = "BUY_CALL" then "buy_to_open"
      else if signal = "BUY_PUT" then "buy_to_open"
      else if signal = "SELL_CALL" then "sell_to_close"
      else if signal = "SELL_PUT" then "sell_to_close"
      else "buy_to_open"
    let pr := placeOptionOrder flags env (some contract) (some ticker) side quantity
      none duration
    let call : GatewayCall := ⟨contract, ticker, side, quantity, duration⟩
    if pr.1.error.isSome then ⟨some call, pr.2, pr.1, tracker⟩
    else
      let tracker2 :=
        if dayTradeAllowed ∧ duration = "day" then addDayTrade tracker ticker quantity now now
        else tracker
      ⟨some call, pr.2, pr.1, tracker2⟩

/-- C9: encoding (SPY, 2025-03-21, call, 450.00) yields exactly
SPY250321C00450000, and decoding that string returns exactly the original
tuple (with strike kept in milli-dollars: 450000). -/
theorem c9_spy_scenario :
    encodeOptionSymbol "SPY" ⟨2025, 3, 21⟩ .call 450000 = "SPY250321C00450000" ∧
    parseOptionSymbol "SPY250321C00450000" none =
      some ⟨"SPY", ⟨2025, 3, 21⟩, "C", 450000⟩ := by
  constructor <;> rfl

/-! Helper lemmas about decimal rendering and parsing. -/

theorem digitChar_isDigit {d : Nat} (h : d < 10) : (digitChar d).isDigit = true := by
  interval_cases d <;> decide

theorem digitChar_toNat {d : Nat} (h : d < 10) : (digitChar d).toNat - 48 = d := by
  interval_cases d <;> decide

theorem parseDigitsGo_append (a b : List Char) (acc : Nat) :
    parseDigitsGo (a ++ b) acc = (parseDigitsGo a acc).bind (fun v => parseDigitsGo b v) := by
  induction a generalizing acc with
  | nil => simp [parseDigitsGo]
  | cons c cs ih =>
    by_cases hc : c.isDigit <;> simp [parseDigitsGo, hc, ih]

theorem parseDigitsGo_replicate_zero (k acc : Nat) :
    parseDigitsGo (List.replicate k '0') acc = some (acc * 10 ^ k) := by
  induction k generalizing acc with
  | zero => simp [parseDigitsGo]
  | succ k ih =>
    have h0 : '0'.isDigit = true := by decide
    have h0n : '0'.toNat - 48 = 0 := by decide
    simp only [List.replicate_succ, parseDigitsGo, h0, if_true, h0n, Nat.add_zero]
    rw [ih]
    congr 1
    ring

theorem parseDigitsGo_none_of_mem {l : List Char} {c : Char} (hc : c ∈ l)
    (hd : c.isDigit = false) (acc : Nat) : parseDigitsGo l acc = none := by
  induction l generalizing acc with
  | nil => cases hc
  | cons x xs ih =>
    rcases List.mem_cons.mp hc with h | h
    · subst h
      simp [parseDigitsGo, hd]
    · by_cases hx : x.isDigit <;> simp [parseDigitsGo, hx, ih h]

theorem natDigitsGo_ne_nil {fuel n : Nat} (h : n < fuel) : natDigitsGo fuel n ≠ [] := by
  cases fuel with
  | zero => omega
  | succ f =>
    by_cases hn : n < 10 <;> simp [natDigitsGo, hn]

theorem natDigitsGo_all_digit {fuel n : Nat} (h : n < fuel) :
    ∀ c ∈ natDigitsGo fuel n, c.isDigit = true := by
  induction fuel generalizing n with
  | zero => omega
  | succ f ih =>
    intro c hc
    by_cases hn : n < 10
    · simp only [natDigitsGo, if_pos hn, List.mem_singleton] at hc
      exact hc ▸ digitChar_isDigit hn
    · simp only [natDigitsGo, if_neg hn, List.mem_append, List.mem_singleton] at hc
      rcases hc with hc | hc
      · exact ih (by omega : n / 10 < f) c hc
      · exact hc ▸ digitChar_isDigit (Nat.mod_lt _ (by omega))

theorem parseDigitsGo_natDigitsGo {fuel n : Nat} (h : n < fuel) (acc : Nat) :
    parseDigitsGo (natDigitsGo fuel n) acc
      = some (acc * 10 ^ (natDigitsGo fuel n).length + n) := by
  induction fuel generalizing n acc with
  | zero => omega
  | succ f ih =>
    by_cases hn : n < 10
    · simp [natDigitsGo, hn, parseDigitsGo, digitChar_isDigit hn, digitChar_toNat hn]
    · have hrec : n / 10 < f := by omega
      have hm : n % 10 < 10 := Nat.mod_lt _ (by omega)
      simp only [natDigitsGo, if_neg hn]
      rw [parseDigitsGo_append, ih hrec acc]
      simp only [Option.some_bind, parseDigitsGo, digitChar_isDigit hm, if_true,
        digitChar_toNat hm, List.length_append, List.length_cons,
        List.length_nil, Nat.zero_add]
      congr 1
      have hdm : n / 10 * 10 + n % 10 = n := by omega
      calc (acc * 10 ^ (natDigitsGo f (n / 10)).length + n / 10) * 10 + n % 10
          = acc * (10 ^ (natDigitsGo f (n / 10)).length * 10)
            + (n / 10 * 10 + n % 10) := by ring
        _ = acc * 10 ^ ((natDigitsGo f (n / 10)).length + 1) + n := by
            rw [hdm, pow_succ]

theorem natDigitsGo_length_le {fuel n w : Nat} (h : n < fuel) (hw : n < 10 ^ w)
    (h1 : 1 ≤ w) : (natDigitsGo fuel n).length ≤ w := by
  induction fuel generalizing n w with
  | zero => omega
  | succ f ih =>
    by_cases hn : n < 10
    · simp [natDigitsGo, hn]
      omega
    · have hw2 : 2 ≤ w := by
        by_contra hcon
        have : w = 1 := by omega
        subst this
        simp at hw
        omega
      have hrec : n / 10 < f := by omega
      have hdiv : n / 10 < 10 ^ (w - 1) := by
        have h10 : (0:Nat) < 10 := by omega
        rw [Nat.div_lt_iff_lt_mul h10]
        calc n < 10 ^ w := hw
        _ = 10 ^ (w - 1) * 10 := by
            rw [← pow_succ]
            congr 1
            omega
      have := ih hrec hdiv (by omega)
      simp only [natDigitsGo, if_neg hn, List.length_append, List.length_cons,
        List.length_nil]
      omega

theorem padNat_all_digit (w n : Nat) : ∀ c ∈ padNat w n, c.isDigit = true := by
  intro c hc
  simp only [padNat, List.mem_append, List.mem_replicate] at hc
  rcases hc with ⟨_, hc⟩ | hc
  · subst hc
    decide
  · exact natDigitsGo_all_digit (Nat.lt_succ_self n) c hc

theorem padNat_ne_nil (w n : Nat) : padNat w n ≠ [] := by
  simp only [padNat]
  intro hcon
  rcases List.append_eq_nil.mp hcon with ⟨_, h2⟩
  exact natDigitsGo_ne_nil (Nat.lt_succ_self n) h2

theorem parseDigitsGo_natDigits (n acc : Nat) :
    parseDigitsGo (natDigits n) acc = some (acc * 10 ^ (natDigits n).length + n) :=
  parseDigitsGo_natDigitsGo (Nat.lt_succ_self n) acc

theorem natDigits_length_le {n w : Nat} (hw : n < 10 ^ w) (h1 : 1 ≤ w) :
    (natDigits n).length ≤ w :=
  natDigitsGo_length_le (Nat.lt_succ_self n) hw h1

theorem parseDigitsGo_padNat {w n : Nat} (hw : n < 10 ^ w) (h1 : 1 ≤ w) (acc : Nat) :
    parseDigitsGo (padNat w n) acc = some (acc * 10 ^ w + n) := by
  have hlen : (natDigits n).length ≤ w := natDigits_length_le hw h1
  have hexp : w - (natDigits n).length + (natDigits n).length = w := by omega
  simp only [padNat]
  rw [parseDigitsGo_append, parseDigitsGo_replicate_zero, Option.some_bind,
    parseDigitsGo_natDigits, mul_assoc, ← pow_add, hexp]

theorem parseNatDigits_padNat (w n : Nat) : parseNatDigits (padNat w n) = some n := by
  have hnil := padNat_ne_nil w n
  simp only [parseNatDigits, List.isEmpty_iff, padNat] at hnil ⊢
  rw [if_neg hnil, parseDigitsGo_append, parseDigitsGo_replicate_zero,
    Option.some_bind, parseDigitsGo_natDigits]
  simp

theorem padNat_length {w n : Nat} (hw : n < 10 ^ w) (h1 : 1 ≤ w) :
    (padNat w n).length = w := by
  have hlen : (natDigits n).length ≤ w := natDigits_length_le hw h1
  simp only [padNat, List.length_append, List.length_replicate]
  omega

theorem parseNatDigits_isDigit {l : List Char} {v : Nat}
    (h : parseNatDigits l = some v) : ∀ c ∈ l, c.isDigit = true := by
  intro c hc
  by_contra hcon
  have hd : c.isDigit = false := by
    cases hcd : c.isDigit
    · rfl
    · exact absurd hcd hcon
  rcases l with _ | ⟨x, xs⟩
  · cases hc
  · simp only [parseNatDigits, List.isEmpty_cons, if_neg] at h
    rw [parseDigitsGo_none_of_mem hc hd] at h
    cases h

/-! List helper lemmas for slicing the encoded symbol. -/

theorem takeWhile_append_all {α} (p : α → Bool) (a b : List α)
    (h : ∀ x ∈ a, p x = true) : (a ++ b).takeWhile p = a ++ b.takeWhile p := by
  induction a with
  | nil => simp
  | cons c cs ih =>
    have hc : p c = true := h c (List.mem_cons_self c cs)
    simp only [List.cons_append, List.takeWhile_cons, hc, if_true]
    rw [ih (fun x hx => h x (List.mem_cons_of_mem c hx))]

theorem takeWhile_cons_false {α} (p : α → Bool) (x : α) (xs : List α)
    (h : p x = false) : (x :: xs).takeWhile p = [] := by
  simp [List.takeWhile_cons, h]

theorem take_exact {α} (l : List α) (w : Nat) (h : l.length = w) : l.take w = l := by
  subst h
  exact List.take_length _

/-- Unfolded form of the decoder with the underlying extracted from the
symbol itself, so the slice positions can be rewritten one at a time. -/
theorem parseOptionSymbol_none (os : String) :
    parseOptionSymbol os none =
      match parseNatDigits ('2' :: '0' ::
            sliceList (sliceList os.toList (extractUnderlying os).toList.length
              ((extractUnderlying os).toList.length + 6)) 0 2),
          parseNatDigits (sliceList (sliceList os.toList (extractUnderlying os).toList.length
              ((extractUnderlying os).toList.length + 6)) 2 4),
          parseNatDigits (sliceList (sliceList os.toList (extractUnderlying os).toList.length
              ((extractUnderlying os).toList.length + 6)) 4 6),
          parseStrikeMilli (os.toList.drop ((extractUnderlying os).toList.length + 7)) with
      | some yy, some mo, some da, some st =>
        some ⟨extractUnderlying os, ⟨yy, mo, da⟩,
          String.mk (sliceList os.toList ((extractUnderlying os).toList.length + 6)
            ((extractUnderlying os).toList.length + 7)), st⟩
      | _, _, _, _ => none := rfl

/-- C2 (amended): the round trip holds for every instrument whose
underlying is non-empty, digit-free and ASCII-alphanumeric, whose
expiration is a future calendar date in 2000-2099, and whose strike is a
positive milli-dollar amount below 10^8. -/
theorem c2_roundtrip (today : Date) (u : String) (d : Date) (t : OptType) (m : Nat)
    (h : ValidInstrument today u d m) :
    parseOptionSymbol (encodeOptionSymbol u d t m) none = some ⟨u, d, t.str, m⟩ := by
  obtain ⟨hne, hnd, hal, _hfut, hy0, hy1, hmo1, _hmo2, hd1, _hd2, _hs0, hs1⟩ := h
  have p100 : (10 : Nat) ^ 2 = 100 := by norm_num
  have p1000 : (10 : Nat) ^ 3 = 1000 := by norm_num
  have p5 : (10 : Nat) ^ 5 = 100000 := by norm_num
  have hyb : d.year % 100 < 10 ^ 2 := by rw [p100]; omega
  have hmb : d.month < 10 ^ 2 := by rw [p100]; omega
  have hdb : d.day < 10 ^ 2 := by rw [p100]; omega
  have hdolb : m / 1000 < 10 ^ 5 := by rw [p5]; omega
  have hcenb : m % 1000 < 10 ^ 3 := by rw [p1000]; omega
  have l1 : (padNat 2 (d.year % 100)).length = 2 := padNat_length hyb (by omega)
  have l2 : (padNat 2 d.month).length = 2 := padNat_length hmb (by omega)
  have l3 : (padNat 2 d.day).length = 2 := padNat_length hdb (by omega)
  have hE : (encodeOptionSymbol u d t m).toList
      = u.toList ++ (padNat 2 (d.year % 100) ++ (padNat 2 d.month ++ (padNat 2 d.day
        ++ (t.char :: (padNat 5 (m / 1000) ++ padNat 3 (m % 1000)))))) := by
    simp [encodeOptionSymbol, List.append_assoc]
  have hext : extractUnderlying (encodeOptionSymbol u d t m) = u := by
    have hforall : ∀ c ∈ u.toList, (!c.isDigit) = true := by
      intro c hc
      have hcd := hnd c hc
      simp [Bool.not_eq_true] at hcd ⊢
      exact hcd
    unfold extractUnderlying
    rw [hE, takeWhile_append_all _ _ _ hforall]
    obtain ⟨c0, cs0, hc0⟩ := List.exists_cons_of_ne_nil (padNat_ne_nil 2 (d.year % 100))
    have hc0d : c0.isDigit = true :=
      padNat_all_digit 2 (d.year % 100) c0 (by rw [hc0]; exact List.mem_cons_self _ _)
    rw [hc0]
    rw [List.cons_append, takeWhile_cons_false _ _ _ (by simp [hc0d])]
    rw [List.append_nil, List.filter_eq_self.mpr hal]
    rfl
  have hE2 : (encodeOptionSymbol u d t m).toList
      = (u.toList ++ (padNat 2 (d.year % 100) ++ (padNat 2 d.month ++ padNat 2 d.day)))
        ++ (t.char :: (padNat 5 (m / 1000) ++ padNat 3 (m % 1000))) := by
    rw [hE]; simp [List.append_assoc]
  have hE3 : (encodeOptionSymbol u d t m).toList
      = ((u.toList ++ (padNat 2 (d.year % 100) ++ (padNat 2 d.month ++ padNat 2 d.day)))
        ++ [t.char]) ++ (padNat 5 (m / 1000) ++ padNat 3 (m % 1000)) := by
    rw [hE]; simp [List.append_assoc]
  have hdropds : (encodeOptionSymbol u d t m).toList.drop u.toList.length
      = padNat 2 (d.year % 100) ++ (padNat 2 d.month ++ (padNat 2 d.day
        ++ (t.char :: (padNat 5 (m / 1000) ++ padNat 3 (m % 1000))))) := by
    rw [hE]; exact List.drop_left' rfl
  have hdrop6 : (encodeOptionSymbol u d t m).toList.drop (u.toList.length + 6)
      = t.char :: (padNat 5 (m / 1000) ++ padNat 3 (m % 1000)) := by
    rw [hE2]; exact List.drop_left' (by simp [l1, l2, l3])
  have hdrop7 : (encodeOptionSymbol u d t m).toList.drop (u.toList.length + 7)
      = padNat 5 (m / 1000) ++ padNat 3 (m % 1000) := by
    rw [hE3]; exact List.drop_left' (by simp [l1, l2, l3])
  have hDP : sliceList (encodeOptionSymbol u d t m).toList u.toList.length
      (u.toList.length + 6)
      = padNat 2 (d.year % 100) ++ (padNat 2 d.month ++ padNat 2 d.day) := by
    unfold sliceList
    rw [hdropds, show u.toList.length + 6 - u.toList.length = 6 from by omega]
    rw [show padNat 2 (d.year % 100) ++ (padNat 2 d.month ++ (padNat 2 d.day
        ++ (t.char :: (padNat 5 (m / 1000) ++ padNat 3 (m % 1000)))))
      = (padNat 2 (d.year % 100) ++ (padNat 2 d.month ++ padNat 2 d.day))
        ++ (t.char :: (padNat 5 (m / 1000) ++ padNat 3 (m % 1000))) from by
      simp [List.append_assoc]]
    exact List.take_left' (by simp [l1, l2, l3])
  have hyearSlice : sliceList (padNat 2 (d.year % 100)
      ++ (padNat 2 d.month ++ padNat 2 d.day)) 0 2 = padNat 2 (d.year % 100) := by
    unfold sliceList
    simp only [List.drop_zero, Nat.sub_zero]
    exact List.take_left' l1
  have hmonthSlice : sliceList (padNat 2 (d.year % 100)
      ++ (padNat 2 d.month ++ padNat 2 d.day)) 2 4 = padNat 2 d.month := by
    unfold sliceList
    rw [show (4 : Nat) - 2 = 2 from rfl, List.drop_left' l1]
    exact List.take_left' l2
  have hdaySlice : sliceList (padNat 2 (d.year % 100)
      ++ (padNat 2 d.month ++ padNat 2 d.day)) 4 6 = padNat 2 d.day := by
    unfold sliceList
    rw [show (6 : Nat) - 4 = 2 from rfl,
      show padNat 2 (d.year % 100) ++ (padNat 2 d.month ++ padNat 2 d.day)
        = (padNat 2 (d.year % 100) ++ padNat 2 d.month) ++ padNat 2 d.day from by
        simp [List.append_assoc],
      List.drop_left' (by simp [l1, l2])]
    exact take_exact _ _ l3
  have hT : sliceList (encodeOptionSymbol u d t m).toList (u.toList.length + 6)
      (u.toList.length + 7) = [t.char] := by
    unfold sliceList
    rw [hdrop6, show u.toList.length + 7 - (u.toList.length + 6) = 1 from by omega]
    rfl
  have hyear : parseNatDigits ('2' :: '0' :: padNat 2 (d.year % 100)) = some d.year := by
    have c2 : ('2').isDigit = true := by decide
    have c0 : ('0').isDigit = true := by decide
    have t2 : ('2').toNat - 48 = 2 := by decide
    have t0 : ('0').toNat - 48 = 0 := by decide
    simp only [parseNatDigits, List.isEmpty_cons, Bool.false_eq_true, if_false,
      parseDigitsGo, c2, c0, t2, t0, if_true]
    rw [show (0 * 10 + 2) * 10 + 0 = 20 from rfl, parseDigitsGo_padNat hyb (by omega) 20]
    congr 1
    rw [p100]
    omega
  have hmonth : parseNatDigits (padNat 2 d.month) = some d.month :=
    parseNatDigits_padNat 2 d.month
  have hday : parseNatDigits (padNat 2 d.day) = some d.day :=
    parseNatDigits_padNat 2 d.day
  have hstrike : parseStrikeMilli (padNat 5 (m / 1000) ++ padNat 3 (m % 1000))
      = some m := by
    have hnil : padNat 5 (m / 1000) ++ padNat 3 (m % 1000) ≠ [] := by
      intro hcon
      exact padNat_ne_nil 5 (m / 1000) (List.append_eq_nil.mp hcon).1
    unfold parseStrikeMilli parseNatDigits
    rw [if_neg (by simpa [List.isEmpty_iff] using hnil)]
    rw [parseDigitsGo_append, parseDigitsGo_padNat hdolb (by omega) 0,
      Option.some_bind, parseDigitsGo_padNat hcenb (by omega)]
    congr 1
    rw [p5, p1000]
    omega
  rw [parseOptionSymbol_none, hext, hDP, hyearSlice, hmonthSlice, hdaySlice, hyear,
    hmonth, hday, hdrop7, hstrike, hT]
  rfl

/-- C2 witness: the amended round trip evaluated at the concrete
instrument (SPY, 2026-03-20, put, 123.456). -/
theorem c2_roundtrip_witness :
    ValidInstrument ⟨2025, 10, 12⟩ "SPY" ⟨2026, 3, 20⟩ 123456 ∧
      parseOptionSymbol (encodeOptionSymbol "SPY" ⟨2026, 3, 20⟩ .put 123456) none
        = some ⟨"SPY", ⟨2026, 3, 20⟩, OptType.str .put, 123456⟩ :=
  ⟨by decide, c2_roundtrip ⟨2025, 10, 12⟩ "SPY" ⟨2026, 3, 20⟩ .put 123456 (by decide)⟩

/-- C2 counterexample: the instrument (BRK.A, 2026-03-20, call, 450.000)
meets every validity condition the claim states, yet decoding its encoded
symbol fails outright, because the decoder drops the dot when it recovers
the underlying and then misaligns every field. -/
theorem c2_counterexample :
    ClaimedValidInstrument ⟨2025, 10, 12⟩ "BRK.A" ⟨2026, 3, 20⟩ 450000 ∧
      parseOptionSymbol (encodeOptionSymbol "BRK.A" ⟨2026, 3, 20⟩ .call 450000) none
        = none := by
  constructor
  · decide
  · rfl

/-- C8 (amended): for every input whose portion before the first digit
is entirely alphanumeric (so nothing is filtered and the extracted
underlying aligns with the first digit), a suffix from the first digit
onward shorter than 8 characters always makes decode fail with the
DecodeError outcome: the strike field is then empty, and float of the
empty string raises under every grammar.  The 15-character bound of the
claim is refuted separately (suffixes of length 8 to 14 can parse), and
the alphanumeric restriction is necessary: when filtered characters such
as underscores shift the field positions, the PEP 515 underscore
acceptance of int() in Python lets even shorter suffixes parse, as in
AB_1010135 (suffix length 7, parsed as year 201). -/
theorem c8_short_suffix (s : String)
    (hpre : ∀ c ∈ s.toList.takeWhile (fun c => !c.isDigit), isAlnumChar c = true)
    (h : (suffixFromFirstDigit s).length < 8) :
    parseOptionSymbol s none = none := by
  have huLen : (extractUnderlying s).toList.length
      = (s.toList.takeWhile (fun c => !c.isDigit)).length := by
    show ((s.toList.takeWhile (fun c => !c.isDigit)).filter isAlnumChar).length = _
    rw [List.filter_eq_self.mpr hpre]
  have hDlen : s.toList.length = (s.toList.takeWhile (fun c => !c.isDigit)).length
      + (suffixFromFirstDigit s).length := by
    unfold suffixFromFirstDigit
    conv_lhs => rw [← List.takeWhile_append_dropWhile (p := fun c => !c.isDigit)
      (l := s.toList)]
    rw [List.length_append]
  have hempty : s.toList.drop ((extractUnderlying s).toList.length + 7) = [] := by
    apply List.drop_eq_nil_of_le
    rw [huLen]
    omega
  rw [parseOptionSymbol_none s, hempty]
  cases parseNatDigits ('2' :: '0' ::
      sliceList (sliceList s.toList (extractUnderlying s).toList.length
        ((extractUnderlying s).toList.length + 6)) 0 2) <;>
    cases parseNatDigits (sliceList (sliceList s.toList
        (extractUnderlying s).toList.length
        ((extractUnderlying s).toList.length + 6)) 2 4) <;>
      cases parseNatDigits (sliceList (sliceList s.toList
          (extractUnderlying s).toList.length
          ((extractUnderlying s).toList.length + 6)) 4 6) <;>
        rfl

/-- C8 witness: the amended failure bound applied at SPY25, whose
pre-digit prefix SPY is alphanumeric and whose suffix 25 has length 2. -/
theorem c8_short_suffix_witness :
    (∀ c ∈ ("SPY25").toList.takeWhile (fun c => !c.isDigit), isAlnumChar c = true) ∧
      (suffixFromFirstDigit "SPY25").length < 8 ∧
      parseOptionSymbol "SPY25" none = none :=
  ⟨by decide, by decide, c8_short_suffix "SPY25" (by decide) (by decide)⟩

/-- C8 counterexample: SPY250321C450 has a suffix of length 10, shorter
than the 15 characters the claim requires, yet decode succeeds, returning
the parsed tuple (SPY, 2025-03-21, C, strike 450 read as 0.450). -/
theorem c8_counterexample :
    (suffixFromFirstDigit "SPY250321C450").length = 10 ∧ (10 : Nat) < 15 ∧
      parseOptionSymbol "SPY250321C450" none
        = some ⟨"SPY", ⟨2025, 3, 21⟩, "C", 450⟩ := by
  refine ⟨by decide, by decide, ?_⟩
  rfl

/-! Ledger lemmas and claims. -/

theorem lookupPos_eq_none_of_not_mem {l : List (String × PositionV)} {k : String}
    (h : k ∉ l.map Prod.fst) : lookupPos l k = none := by
  induction l with
  | nil => rfl
  | cons p rest ih =>
    obtain ⟨k0, v0⟩ := p
    simp only [List.map_cons, List.mem_cons] at h
    push_neg at h
    unfold lookupPos
    rw [if_neg (fun hk => h.1 hk.symm)]
    exact ih h.2

theorem lookupPos_removePos_self {l : List (String × PositionV)} {k : String}
    (h : (l.map Prod.fst).Nodup) : lookupPos (removePos l k) k = none := by
  induction l with
  | nil => rfl
  | cons p rest ih =>
    obtain ⟨k0, v0⟩ := p
    simp only [List.map_cons, List.nodup_cons] at h
    unfold removePos
    by_cases hk : k0 = k
    · rw [if_pos hk]
      subst hk
      exact lookupPos_eq_none_of_not_mem h.1
    · rw [if_neg hk]
      unfold lookupPos
      rw [if_neg hk]
      exact ih h.2

/-- C10: closing a symbol with no entry in the open-position map returns
false and leaves the whole ledger state unchanged. -/
theorem c10_close_unknown (s : TrackerState) (symbol : String) (contracts exitTime : Int)
    (h : lookupPos s.trades symbol = none) :
    closePosition s symbol contracts exitTime = (false, s) := by
  unfold closePosition
  rw [h]

/-- C10 witness: closing MSFT against a ledger that only holds AAPL
leaves the ledger untouched and reports no day trade. -/
theorem c10_close_unknown_witness :
    lookupPos [("AAPL", ⟨100, 5⟩)] "MSFT" = none ∧
      closePosition ⟨[("AAPL", ⟨100, 5⟩)], [], 3⟩ "MSFT" 5 200
        = (false, ⟨[("AAPL", ⟨100, 5⟩)], [], 3⟩) :=
  ⟨by decide, c10_close_unknown ⟨[("AAPL", ⟨100, 5⟩)], [], 3⟩ "MSFT" 5 200 (by decide)⟩

/-- C4: with the symbol held, a same-calendar-date close returns true and
appends exactly one DayTradeRecord; a cross-date close returns false and
appends none; and a same-date close of the full held quantity removes the
symbol from the open-position map (given the dict invariant of unique
keys). -/
theorem c4_day_trade_detection (s : TrackerState) (symbol : String) (pos : PositionV)
    (contracts exitTime : Int) (hpos : lookupPos s.trades symbol = some pos)
    (huniq : (s.trades.map Prod.fst).Nodup) :
    ((closePosition s symbol contracts exitTime).1 = true
      ↔ dateOfTime pos.entryTime = dateOfTime exitTime)
  ∧ (dateOfTime pos.entryTime = dateOfTime exitTime →
      ((closePosition s symbol contracts exitTime).2).dayTrades
        = s.dayTrades ++ [⟨symbol, pos.entryTime, exitTime, min contracts pos.contracts⟩])
  ∧ (dateOfTime pos.entryTime ≠ dateOfTime exitTime →
      ((closePosition s symbol contracts exitTime).2).dayTrades = s.dayTrades)
  ∧ (dateOfTime pos.entryTime = dateOfTime exitTime → contracts = pos.contracts →
      lookupPos ((closePosition s symbol contracts exitTime).2).trades symbol = none) := by
  unfold closePosition
  rw [hpos]
  refine ⟨?_, ?_, ?_, ?_⟩
  · simp [beq_iff_eq]
  · intro hsame
    simp [beq_iff_eq, hsame]
  · intro hdiff
    simp [beq_iff_eq, hdiff]
  · intro _hsame hfull
    subst hfull
    simp only
    rw [if_pos (by omega : pos.contracts - pos.contracts ≤ 0)]
    exact lookupPos_removePos_self huniq

/-- C4 witness: open 10 contracts of XYZ at 09:35 and close all 10 at
15:50 the same day; the close reports a day trade, appends one record and
clears the position.  Cross-date behaviour is witnessed at the same state
with an exit one day later. -/
theorem c4_day_trade_detection_witness :
    (lookupPos [("XYZ", ⟨34500, 10⟩)] "XYZ" = some ⟨34500, 10⟩) ∧
    ((((closePosition ⟨[("XYZ", ⟨34500, 10⟩)], [], 3⟩ "XYZ" 10 57000).1 = true
        ↔ dateOfTime 34500 = dateOfTime 57000)
      ∧ (dateOfTime 34500 = dateOfTime 57000 →
          ((closePosition ⟨[("XYZ", ⟨34500, 10⟩)], [], 3⟩ "XYZ" 10 57000).2).dayTrades
            = [] ++ [⟨"XYZ", 34500, 57000, min 10 10⟩])
      ∧ (dateOfTime 34500 ≠ dateOfTime 57000 →
          ((closePosition ⟨[("XYZ", ⟨34500, 10⟩)], [], 3⟩ "XYZ" 10 57000).2).dayTrades = [])
      ∧ (dateOfTime 34500 = dateOfTime 57000 → (10 : Int) = 10 →
          lookupPos ((closePosition ⟨[("XYZ", ⟨34500, 10⟩)], [], 3⟩ "XYZ" 10 57000).2).trades
            "XYZ" = none))
      ∧ ((closePosition ⟨[("XYZ", ⟨34500, 10⟩)], [], 3⟩ "XYZ" 10 120000).1 = false)) :=
  ⟨by decide,
    c4_day_trade_detection ⟨[("XYZ", ⟨34500, 10⟩)], [], 3⟩ "XYZ" ⟨34500, 10⟩ 10 57000
      (by decide) (by decide),
    by decide⟩

/-- C5: canDayTrade returns exactly (count of non-expired records) <
limit; in particular it is false when max_trades records all sit inside
the rolling window, and true again once the oldest of them has an exit
time at or before the cutoff now - window. -/
theorem c5_pdt_enforcement (now : Int) (s : TrackerState) :
    (canDayTrade now s
      = decide ((s.dayTrades.filter (fun dt => now - windowSeconds < dt.exitTime)).length
          < s.maxTrades))
  ∧ (s.dayTrades.length = s.maxTrades →
      (∀ dt ∈ s.dayTrades, now - windowSeconds < dt.exitTime) →
      canDayTrade now s = false)
  ∧ (∀ old rest, s.dayTrades = old :: rest →
      old.exitTime ≤ now - windowSeconds →
      (∀ dt ∈ rest, now - windowSeconds < dt.exitTime) →
      rest.length + 1 = s.maxTrades →
      canDayTrade now s = true) := by
  refine ⟨rfl, ?_, ?_⟩
  · intro hlen hall
    unfold canDayTrade dayTradeCount cleanupExpiredDayTrades
    simp only
    rw [List.filter_eq_self.mpr (fun a ha => decide_eq_true (hall a ha))]
    simp [hlen]
  · intro old rest hsplit hold hrest hcount
    unfold canDayTrade dayTradeCount cleanupExpiredDayTrades
    simp only
    rw [hsplit, List.filter_cons_of_neg (by simp; omega),
      List.filter_eq_self.mpr (fun a ha => decide_eq_true (hrest a ha))]
    simp
    omega

/-- C5 witness: with limit 3 and now = 1000000 (window cutoff 395200),
three in-window records forbid a new day trade, and the same ledger with
its oldest record expired allows one again. -/
theorem c5_pdt_enforcement_witness :
    canDayTrade 1000000 ⟨[], [⟨"A", 0, 400000, 1⟩, ⟨"B", 0, 500000, 1⟩,
        ⟨"C", 0, 600000, 1⟩], 3⟩ = false ∧
      canDayTrade 1000000 ⟨[], [⟨"A", 0, 395200, 1⟩, ⟨"B", 0, 500000, 1⟩,
        ⟨"C", 0, 600000, 1⟩], 3⟩ = true :=
  ⟨(c5_pdt_enforcement 1000000 _).2.1 (by decide) (by decide),
    (c5_pdt_enforcement 1000000 _).2.2 ⟨"A", 0, 395200, 1⟩
      [⟨"B", 0, 500000, 1⟩, ⟨"C", 0, 600000, 1⟩] rfl (by decide) (by decide) (by decide)⟩

/-! Retry-loop lemmas and claim C3. -/

theorem placeOrderGo_all_retryable (resp : Nat → HttpResponse) (base : Nat)
    (hall : ∀ i, ∃ c, c ∈ retryableStatuses ∧ ∃ r, resp i = .httpError c r) :
    ∀ fuel attempt, 1 ≤ fuel →
    (placeOrderGo resp base attempt fuel).attempts = fuel ∧
    (placeOrderGo resp base attempt fuel).waits
      = (List.range (fuel - 1)).map (fun i => base * 2 ^ (attempt + i)) ∧
    (placeOrderGo resp base attempt fuel).response.status = some "rejected" ∧
    (placeOrderGo resp base attempt fuel).response.error ≠ none := by
  intro fuel
  induction fuel with
  | zero => omega
  | succ f ih =>
    intro attempt _hf
    obtain ⟨c, hc, r, hr⟩ := hall attempt
    have hc400 : ¬ c = 400 := by
      simp [retryableStatuses] at hc
      omega
    simp only [placeOrderGo]
    rw [hr]
    simp only [if_neg hc400]
    cases f with
    | zero =>
      rw [if_neg (by simp)]
      simp
    | succ f2 =>
      rw [if_pos ⟨by omega, hc⟩]
      obtain ⟨iha, ihw, ihs, ihe⟩ := ih (attempt + 1) (by omega)
      refine ⟨by simp [iha], ?_, by simpa using ihs, by simpa using ihe⟩
      simp only [ihw]
      rw [show f2 + 1 + 1 - 1 = (f2 + 1 - 1) + 1 from by omega,
        List.range_succ_eq_map, List.map_cons, List.map_map]
      congr 1
      apply List.map_congr_left
      intro i _hi
      simp only [Function.comp_apply]
      exact congrArg (fun e => base * 2 ^ e)
        (by omega : attempt + 1 + i = attempt + (i + 1))

/-- C3: when every attempt fails with a retryable status (429, 500, 502,
503 or 504), place_order makes exactly maxRetries attempts, sleeping
base * 2 ^ attempt between consecutive attempts, and then returns a
rejected error dict; when the first attempt fails with HTTP 400 the call
makes exactly one attempt and returns a rejection carrying the
server-provided reason. -/
theorem c3_retry_bound (resp : Nat → HttpResponse) (maxRetries base : Nat)
    (h1 : 1 ≤ maxRetries) :
    ((∀ i, ∃ c, c ∈ retryableStatuses ∧ ∃ r, resp i = .httpError c r) →
      (placeOrderRun resp maxRetries base).attempts = maxRetries ∧
      (placeOrderRun resp maxRetries base).waits
        = (List.range (maxRetries - 1)).map (fun i => base * 2 ^ i) ∧
      (placeOrderRun resp maxRetries base).response.status = some "rejected" ∧
      (placeOrderRun resp maxRetries base).response.error ≠ none)
  ∧ (∀ r, resp 0 = .httpError 400 r →
      (placeOrderRun resp maxRetries base).attempts = 1 ∧
      (placeOrderRun resp maxRetries base).response
        = { error := some ("Order validation error: " ++ r),
            status := some "rejected" }) := by
  constructor
  · intro hall
    obtain ⟨ha, hw, hs, he⟩ := placeOrderGo_all_retryable resp base hall maxRetries 0 h1
    exact ⟨ha, by simpa using hw, hs, he⟩
  · intro r hr
    cases maxRetries with
    | zero => omega
    | succ k =>
      unfold placeOrderRun
      simp only [placeOrderGo]
      rw [hr]
      simp

/-- C3 witness: with the default configuration (3 retries, base 2), a
permanently-503 endpoint is attempted 3 times with waits 2 and 4 and then
rejected, and a 400 endpoint is attempted once and rejected with the
server reason. -/
theorem c3_retry_bound_witness :
    ((placeOrderRun (fun _ => .httpError 503 "unavailable") 3 2).attempts = 3 ∧
      (placeOrderRun (fun _ => .httpError 503 "unavailable") 3 2).waits
        = (List.range 2).map (fun i => 2 * 2 ^ i) ∧
      (placeOrderRun (fun _ => .httpError 503 "unavailable") 3 2).response.status
        = some "rejected" ∧
      (placeOrderRun (fun _ => .httpError 503 "unavailable") 3 2).response.error ≠ none) ∧
    ((placeOrderRun (fun _ => .httpError 400 "bad order") 3 2).attempts = 1 ∧
      (placeOrderRun (fun _ => .httpError 400 "bad order") 3 2).response
        = { error := some ("Order validation error: " ++ "bad order"),
            status := some "rejected" }) :=
  ⟨(c3_retry_bound (fun _ => .httpError 503 "unavailable") 3 2 (by decide)).1
      (fun _ => ⟨503, by decide, "unavailable", rfl⟩),
    (c3_retry_bound (fun _ => .httpError 400 "bad order") 3 2 (by decide)).2
      "bad order" rfl⟩

/-! Gateway and coordinator claims. -/

/-- C1 (code evaluation): in sandbox mode with ENABLE_SANDBOX_FALLBACK
set to false, an instrument that resolves to no real data (empty lookup,
no expirations) still yields a synthesized filled OrderResult with the
simulated flag, not an InstrumentNotFound rejection - the order path
never consults the fallback flag. -/
theorem c1_simulated_fill_with_fallback_disabled :
    (placeOptionOrder ⟨true, false⟩
        { lookupResults := [], expirations := [], chainOptions := [], prodChain := none,
          httpResponses := fun _ => .netError "unreachable", maxRetries := 3,
          retryBase := 2, randOrderId := 123456, randFillMilli := 2500 }
        (some "SPY250321C00450000") (some "SPY") "buy_to_open" 1 none "day").1.simulated
      = true ∧
    (placeOptionOrder ⟨true, false⟩
        { lookupResults := [], expirations := [], chainOptions := [], prodChain := none,
          httpResponses := fun _ => .netError "unreachable", maxRetries := 3,
          retryBase := 2, randOrderId := 123456, randFillMilli := 2500 }
        (some "SPY250321C00450000") (some "SPY") "buy_to_open" 1 none "day").1.status
      = some "filled" ∧
    (placeOptionOrder ⟨true, false⟩
        { lookupResults := [], expirations := [], chainOptions := [], prodChain := none,
          httpResponses := fun _ => .netError "unreachable", maxRetries := 3,
          retryBase := 2, randOrderId := 123456, randFillMilli := 2500 }
        (some "SPY250321C00450000") (some "SPY") "buy_to_open" 1 none "day").1.error
      = none :=
  ⟨rfl, rfl, rfl⟩

/-- C6 (code evaluation): a successful opening trade through the
coordinator appends a DayTradeRecord at open time - the ledger ends with
one record for the ticker while the open-position map is untouched and no
close ever happened. -/
theorem c6_record_created_at_open :
    (executeOpportunityTrade ⟨true, true⟩
        { lookupResults := [⟨"SPY250321C00450000", "call", 450000⟩], expirations := [],
          chainOptions := [], prodChain := none,
          httpResponses := fun _ => .ok true (some 42) (some "ok"), maxRetries := 3,
          retryBase := 2, randOrderId := 111111, randFillMilli := 2500 }
        true "SPY" "SPY250321C00450000" "BUY_CALL" 2 true ⟨[], [], 3⟩ 1000).tracker.dayTrades
      = [⟨"SPY", 1000, 1000, 2⟩] ∧
    (executeOpportunityTrade ⟨true, true⟩
        { lookupResults := [⟨"SPY250321C00450000", "call", 450000⟩], expirations := [],
          chainOptions := [], prodChain := none,
          httpResponses := fun _ => .ok true (some 42) (some "ok"), maxRetries := 3,
          retryBase := 2, randOrderId := 111111, randFillMilli := 2500 }
        true "SPY" "SPY250321C00450000" "BUY_CALL" 2 true ⟨[], [], 3⟩ 1000).tracker.trades
      = [] ∧
    (executeOpportunityTrade ⟨true, true⟩
        { lookupResults := [⟨"SPY250321C00450000", "call", 450000⟩], expirations := [],
          chainOptions := [], prodChain := none,
          httpResponses := fun _ => .ok true (some 42) (some "ok"), maxRetries := 3,
          retryBase := 2, randOrderId := 111111, randFillMilli := 2500 }
        true "SPY" "SPY250321C00450000" "BUY_CALL" 2 true ⟨[], [], 3⟩ 1000).response.error
      = none :=
  ⟨rfl, rfl, rfl⟩

/-- C7: with the market open and a well-formed contract, the coordinator
always places the gateway call, with time-in-force gtc exactly when
dayTradeAllowed = (not pdtApplies or canDayTrade) is false and day when
it is true; the PDT gate never rejects the order. -/
theorem c7_duration_forced_not_rejected (flags : Flags) (env : GatewayEnv)
    (ticker contract signal : String) (n : Int) (pdtApplies : Bool) (now : Int)
    (tracker : TrackerState) (hlen : ¬ contract.length < 15) :
    (executeOpportunityTrade flags env true ticker contract signal n
        (!pdtApplies || canDayTrade now tracker) tracker now).gatewayCall
      = some ⟨contract, ticker,
          if signal = "BUY_CALL" then "buy_to_open"
          else if signal = "BUY_PUT" then "buy_to_open"
          else if signal = "SELL_CALL" then "sell_to_close"
          else if signal = "SELL_PUT" then "sell_to_close"
          else "buy_to_open",
          max 1 n,
          if (!pdtApplies || canDayTrade now tracker) then "day" else "gtc"⟩ := by
  unfold executeOpportunityTrade
  rw [if_neg (by simp), if_neg hlen]
  simp only
  repeat' split
  all_goals rfl

/-- C7 witness: a PDT-limited account (limit 1 already used) still
submits, with duration gtc; a fresh account submits with duration day. -/
theorem c7_duration_forced_not_rejected_witness :
    (¬ ("SPY250321C00450000").length < 15) ∧
    (executeOpportunityTrade ⟨true, true⟩
        { lookupResults := [], expirations := [], chainOptions := [], prodChain := none,
          httpResponses := fun _ => .netError "down", maxRetries := 3, retryBase := 2,
          randOrderId := 1, randFillMilli := 2 }
        true "SPY" "SPY250321C00450000" "BUY_CALL" 2
        (!true || canDayTrade 1000000 ⟨[], [⟨"A", 0, 999000, 1⟩], 1⟩)
        ⟨[], [⟨"A", 0, 999000, 1⟩], 1⟩ 1000000).gatewayCall
      = some ⟨"SPY250321C00450000", "SPY",
          if ("BUY_CALL" : String) = "BUY_CALL" then "buy_to_open"
          else if ("BUY_CALL" : String) = "BUY_PUT" then "buy_to_open"
          else if ("BUY_CALL" : String) = "SELL_CALL" then "sell_to_close"
          else if ("BUY_CALL" : String) = "SELL_PUT" then "sell_to_close"
          else "buy_to_open",
          max 1 2,
          if (!true || canDayTrade 1000000 ⟨[], [⟨"A", 0, 999000, 1⟩], 1⟩)
          then "day" else "gtc"⟩ ∧
    (executeOpportunityTrade ⟨true, true⟩
        { lookupResults := [], expirations := [], chainOptions := [], prodChain := none,
          httpResponses := fun _ => .netError "down", maxRetries := 3, retryBase := 2,
          randOrderId := 1, randFillMilli := 2 }
        true "SPY" "SPY250321C00450000" "BUY_CALL" 2
        (!true || canDayTrade 1000000 ⟨[], [], 3⟩) ⟨[], [], 3⟩ 1000000).gatewayCall
      = some ⟨"SPY250321C00450000", "SPY",
          if ("BUY_CALL" : String) = "BUY_CALL" then "buy_to_open"
          else if ("BUY_CALL" : String) = "BUY_PUT" then "buy_to_open"
          else if ("BUY_CALL" : String) = "SELL_CALL" then "sell_to_close"
          else if ("BUY_CALL" : String) = "SELL_PUT" then "sell_to_close"
          else "buy_to_open",
          max 1 2,
          if (!true || canDayTrade 1000000 ⟨[], [], 3⟩) then "day" else "gtc"⟩ :=
  ⟨by decide,
    c7_duration_forced_not_rejected ⟨true, true⟩ _ "SPY" "SPY250321C00450000" "BUY_CALL"
      2 true 1000000 ⟨[], [⟨"A", 0, 999000, 1⟩], 1⟩ (by decide),
    c7_duration_forced_not_rejected ⟨true, true⟩ _ "SPY" "SPY250321C00450000" "BUY_CALL"
      2 true 1000000 ⟨[], [], 3⟩ (by decide)⟩

end ForwardProfit
